import Mathlib

/-
Verification development for the JSON-Schema-to-GraphQL translation core.

The definitions below are a shallow embedding of the TypeScript source:
JavaScript values are modelled by the inductive JSValue (JSON values plus
the undefined value), JavaScript objects by association lists that keep
insertion order, and the external collaborators (fetch, JSON.parse,
stringInterpolator, readFileOrUrl, toJsonSchema, the json-machete pipeline)
by function parameters, so theorems quantify over their behaviour.
Machine strings are Lean strings; JSON numbers are modelled by Int, which
is exact for every value the claims exercise.
-/

set_option autoImplicit false

namespace Mesh

/-- JavaScript runtime values as far as the embedded code inspects them:
the JSON constructors plus the undefined value (absent properties). -/
inductive JSValue where
  | undefinedJS
  | null
  | bool (b : Bool)
  | num (n : Int)
  | str (s : String)
  | arr (elems : List JSValue)
  | obj (fields : List (String × JSValue))
deriving Repr

/-- JavaScript truthiness: undefined, null, false, 0 and the empty string
are falsy; every array and object is truthy. -/
def truthy : JSValue → Bool
  | .undefinedJS => false
  | .null => false
  | .bool b => b
  | .num n => n != 0
  | .str s => s != ""
  | .arr _ => true
  | .obj _ => true

/-- Property read on a JavaScript value: an own property of an object, and
undefined for a missing key or a non-object receiver. -/
def jsGet (v : JSValue) (k : String) : JSValue :=
  match v with
  | .obj fields =>
    match fields.find? (fun kv => kv.1 = k) with
    | some kv => kv.2
    | none => .undefinedJS
  | _ => .undefinedJS

/-- The JavaScript or-else operator a || b. -/
def jsOr (a b : JSValue) : JSValue :=
  if truthy a then a else b

/-- Key update on an association list: an existing key keeps its position
and gets the new value, a fresh key is appended, as JavaScript property
assignment does. -/
def setKey : List (String × JSValue) → String → JSValue → List (String × JSValue)
  | [], k, v => [(k, v)]
  | kv :: rest, k, v =>
    if kv.1 = k then (k, v) :: rest else kv :: setKey rest k v

/-- Property write on a JavaScript value; a non-object receiver is left
unchanged (the embedded code only ever writes to objects). -/
def objSet (o : JSValue) (k : String) (v : JSValue) : JSValue :=
  match o with
  | .obj fields => .obj (setKey fields k v)
  | other => other

/-- Property read returning Option, for stating lookups in theorems. -/
def objGet (o : JSValue) (k : String) : Option JSValue :=
  match o with
  | .obj fields => (fields.find? (fun kv => kv.1 = k)).map (fun kv => kv.2)
  | _ => none

/-- Truthiness of an optional string, as JavaScript sees an optional
property holding a string: missing and empty are falsy. -/
def truthyOptStr : Option String → Bool
  | some s => s != ""
  | none => false

/-- Operation config, the union of JSONSchemaHTTPOperationConfig and
JSONSchemaPubSubOperationConfig from the source, with optional fields for
the properties only one variant declares.  The field pubSubTopic (capital
S) models the presence of the literal runtime key with that spelling: the
declared interfaces only ever use the spelling pubsubTopic, but the
classification code probes the other spelling, so the embedding keeps
both keys apart. -/
structure JSONSchemaOperationConfig where
  type : String
  field : String
  method : Option String := none
  path : Option String := none
  headers : List (String × String) := []
  pubsubTopic : Option String := none
  pubSubTopic : Option String := none
  requestSchema : Option String := none
  requestSample : Option String := none
  requestTypeName : Option String := none
  responseSchema : Option String := none
  responseSample : Option String := none
  responseTypeName : Option String := none
deriving Repr

/-- Embedding of isPubSubOperationConfig: the source tests the literal
key spelled pubSubTopic with the JavaScript in operator. -/
def isPubSubOperationConfig (c : JSONSchemaOperationConfig) : Bool :=
  c.pubSubTopic.isSome

/-- ASCII lowering of one character, the fragment of
String.prototype.toLowerCase every operation type string exercises. -/
def lowerChar (c : Char) : Char :=
  if 'A' ≤ c ∧ c ≤ 'Z' then Char.ofNat (c.toNat + 32) else c

/-- Model of the JavaScript toLowerCase call on operation type strings. -/
def toLowerCaseJS (s : String) : String :=
  String.mk (s.data.map lowerChar)

/-- Result record of getOperationMetadata. -/
structure OperationMetadata where
  httpMethod : Option String
  operationType : String
  rootTypeName : String
  fieldName : String
deriving Repr

/-- Embedding of getOperationMetadata.  In the source the two early
assignments to rootTypeName in the non-pubsub branch are dead: the final
unconditional ternary overwrites them, so the net effect is Query exactly
for the lowercased type string query and Mutation otherwise. -/
def getOperationMetadata (c : JSONSchemaOperationConfig) : OperationMetadata :=
  if isPubSubOperationConfig c then
    { httpMethod := none
      operationType := "subscription"
      rootTypeName := "Subscription"
      fieldName := c.field }
  else
    let operationType := toLowerCaseJS c.type
    let httpMethod :=
      match c.method with
      | some m => some m
      | none => if operationType = "mutation" then some "POST" else some "GET"
    let rootTypeName := if operationType = "query" then "Query" else "Mutation"
    { httpMethod := httpMethod
      operationType := operationType
      rootTypeName := rootTypeName
      fieldName := c.field }

/-- Which execution binding addExecutionLogicToComposer attaches to a
field: the pubsub subscribe/resolve pair when isPubSubOperationConfig
holds, the HTTP resolver when the config has a truthy path, and nothing
otherwise. -/
inductive BindingKind where
  | pubsub
  | http
  | noBinding
deriving Repr, DecidableEq

/-- Embedding of the dispatch in addExecutionLogicToComposer. -/
def bindingKind (c : JSONSchemaOperationConfig) : BindingKind :=
  if isPubSubOperationConfig c then .pubsub
  else if truthyOptStr c.path then .http
  else .noBinding

mutual

/-- String conversion JavaScript applies to URLSearchParams record values
(the ToUSVString coercion).  Arrays join their converted elements with
commas; plain objects print as the bracketed Object tag. -/
def jsToUSV : JSValue → String
  | .undefinedJS => "undefined"
  | .null => "null"
  | .bool b => if b then "true" else "false"
  | .num n => toString n
  | .str s => s
  | .arr l => String.intercalate "," (jsToUSVList l)
  | .obj _ => "[object Object]"

def jsToUSVList : List JSValue → List String
  | [] => []
  | v :: rest => jsToUSV v :: jsToUSVList rest

end

/-- Query-string parse used by the URLSearchParams constructor on string
input: split on ampersands, each piece on its first equals sign.  Percent
decoding is not modelled; no claim exercises it. -/
def parseQueryPairs (s : String) : List (String × String) :=
  let s := if s.startsWith "?" then s.drop 1 else s
  (s.splitOn "&").filterMap (fun piece =>
    if piece = "" then none
    else
      match piece.splitOn "=" with
      | [] => none
      | k :: rest => some (k, String.intercalate "=" rest))

/-- Pair list the URLSearchParams constructor derives from the resolved
input value: the entries of a record with coerced values, the parsed
pairs of a pair sequence, and for any other value the parse of its
string form. -/
def urlSearchParamsOf : JSValue → List (String × String)
  | .obj fields => fields.map (fun kv => (kv.1, jsToUSV kv.2))
  | .arr l =>
    l.map (fun e =>
      match e with
      | .arr [k, v] => (jsToUSV k, jsToUSV v)
      | other => (jsToUSV other, ""))
  | other => parseQueryPairs (jsToUSV other)

/-- Embedding of URLSearchParams.set: the first pair with the key takes
the new value in place, later pairs with the key are deleted, and a
missing key is appended at the end. -/
def setParam : List (String × String) → String → String → List (String × String)
  | [], k, v => [(k, v)]
  | p :: rest, k, v =>
    if p.1 = k then (k, v) :: rest.filter (fun q => q.1 ≠ k)
    else p :: setParam rest k v

/-- First value bound to a key in a query-parameter list. -/
def lookupParam (ps : List (String × String)) (k : String) : Option String :=
  (ps.find? (fun p => p.1 = k)).map (fun p => p.2)

/-- ASCII model of String.prototype.startsWith. -/
def startsWithJS (s pre : String) : Bool :=
  s.data.take pre.data.length == pre.data

/-- Value of the first merged header whose lowercased name is
content-type, exactly the Object.entries(...).find lookup in the
source. -/
def contentTypeHeader (headers : List (String × String)) : Option String :=
  (headers.find? (fun kv => toLowerCaseJS kv.1 = "content-type")).map (fun kv => kv.2)

/-- Body the resolver attaches to the outgoing request, tagged by which
external serializer the source hands the input to. -/
inductive RequestBody where
  | urlEncodedForm (input : JSValue)
  | flatJson (input : JSValue)
deriving Repr

/-- Outgoing request pieces the input-serialization switch decides:
the final query-parameter list and the optional body. -/
structure BuiltRequest where
  searchParams : List (String × String)
  body : Option RequestBody
deriving Repr

/-- The nine method names the switch in the source handles. -/
def knownHttpMethods : List String :=
  ["GET", "HEAD", "CONNECT", "OPTIONS", "TRACE", "POST", "PUT", "PATCH", "DELETE"]

/-- Embedding of the input-serialization switch of the HTTP resolver:
with a truthy input, bodyless methods write every input pair into the
URL query parameters through URLSearchParams.set, body methods serialize
the input as an urlencoded form exactly when the first content-type
header value starts with the form media type and as flattened JSON
otherwise, and any other method raises the unknown-method error; a falsy
input skips the switch entirely. -/
def buildRequest (httpMethod : String) (input : JSValue)
    (headers : List (String × String)) (searchParams : List (String × String)) :
    Except String BuiltRequest :=
  if truthy input then
    if ["GET", "HEAD", "CONNECT", "OPTIONS", "TRACE"].contains httpMethod then
      .ok { searchParams :=
              (urlSearchParamsOf input).foldl
                (fun ps kv => setParam ps kv.1 kv.2) searchParams
            body := none }
    else if ["POST", "PUT", "PATCH", "DELETE"].contains httpMethod then
      let isForm :=
        match contentTypeHeader headers with
        | some v => startsWithJS v "application/x-www-form-urlencoded"
        | none => false
      if isForm then
        .ok { searchParams := searchParams, body := some (.urlEncodedForm input) }
      else
        .ok { searchParams := searchParams, body := some (.flatJson input) }
    else
      .error ("Unknown method " ++ httpMethod)
  else
    .ok { searchParams := searchParams, body := none }

/-- Serialization choice stated by the amended claim for body methods:
urlencoded form exactly when the first content-type header value starts
with the form media type, flattened JSON otherwise. -/
def expectedBodySerialization (headers : List (String × String))
    (input : JSValue) : RequestBody :=
  match contentTypeHeader headers with
  | some v =>
    if startsWithJS v "application/x-www-form-urlencoded"
    then .urlEncodedForm input else .flatJson input
  | none => .flatJson input

/-- Success recognizer for a built request, for stating theorems. -/
def isOkRequest : Except String BuiltRequest → Bool
  | .ok _ => true
  | .error _ => false

/-- Query parameters of a built request; empty on the error case. -/
def builtSearchParams : Except String BuiltRequest → List (String × String)
  | .ok r => r.searchParams
  | .error _ => []

/-- Body of a built request; none on the error case. -/
def builtBody : Except String BuiltRequest → Option RequestBody
  | .ok r => r.body
  | .error _ => none

/-- GraphQL return type of a field as far as the resolver inspects it:
whether graphql isScalarType accepts it, and its field-name list when it
exposes getFields (none models the absence of the getFields member). -/
structure ReturnTypeModel where
  isScalarType : Bool
  getFields : Option (List String)
deriving Repr, DecidableEq

/-- The guard pattern of the source: the return type exposes getFields
and the given name is among its fields. -/
def typeDeclaresField (rt : ReturnTypeModel) (name : String) : Bool :=
  match rt.getFields with
  | some fs => fs.contains name
  | none => false

/-- The JavaScript test typeof x === the object tag, which holds for
null, arrays and plain objects. -/
def typeofObject : JSValue → Bool
  | .null => true
  | .arr _ => true
  | .obj _ => true
  | _ => false

/-- Own enumerable properties Object.assign copies from an error value. -/
def ownEnumerableProps : JSValue → List (String × JSValue)
  | .obj fields => fields
  | .arr l => (l.enum.map (fun p => (toString p.1, p.2)))
  | _ => []

/-- Normalized error value: either a fresh Error object carrying the
interpolated message and the source fields (with a nulled stack), or the
original value untouched when it is not an object or the message is
empty. -/
inductive NormalizedError where
  | errObj (message : String) (props : List (String × JSValue))
  | raw (v : JSValue)
deriving Repr

/-- Embedding of normalizeError; interp stands for the external
stringInterpolator.parse. -/
def normalizeError (interp : String → JSValue → String) (tmpl : String)
    (e : JSValue) : NormalizedError :=
  let errorMessage := interp tmpl e
  if typeofObject e && errorMessage != "" then
    .errObj errorMessage (ownEnumerableProps e)
  else
    .raw e

/-- Value of the optional chain errors?.length: undefined for a nullish
receiver, the element count of an array, the unit count of a string, the
length property of an object, and undefined otherwise. -/
def jsLengthChain : JSValue → JSValue
  | .arr l => .num l.length
  | .str s => .num s.length
  | .obj fields => jsGet (.obj fields) "length"
  | _ => .undefinedJS

/-- Outcome of one HTTP resolver invocation after the fetch: plain data
returned, the raw body text thrown, a returned AggregateError over the
normalized entries, a returned single normalized error, or the runtime
type error JavaScript raises when a non-array with a truthy length is
mapped. -/
inductive ResolveOutcome where
  | data (v : JSValue)
  | rawThrow (s : String)
  | aggregate (errs : List NormalizedError) (message : String)
  | single (e : NormalizedError)
  | jsTypeError
deriving Repr

/-- Recognizer for the aggregated-error outcome. -/
def ResolveOutcome.isAggregate : ResolveOutcome → Bool
  | .aggregate _ _ => true
  | _ => false

/-- Recognizer for a non-empty array value. -/
def isNonEmptyArr : JSValue → Bool
  | .arr l => !l.isEmpty
  | _ => false

/-- Embedding of the trailing singular-error check of the resolver: a
truthy error property of the body is normalized and returned unless the
return type itself declares a field named error, in which case, as when
the property is falsy, the body comes back unchanged. -/
def singularErrorCheck (interp : String → JSValue → String) (tmpl : String)
    (rt : ReturnTypeModel) (body : JSValue) : ResolveOutcome :=
  if truthy (jsGet body "error") then
    if !typeDeclaresField rt "error" then
      .single (normalizeError interp tmpl (jsGet body "error"))
    else .data body
  else .data body

/-- Embedding of the error-detection logic on a parsed JSON body: the
errors property, or when falsy the _errors property, triggers the
aggregated branch when its optional-chained length is truthy and the
return type does not declare errors; the branch maps normalizeError over
an array and raises a runtime type error on anything else, and every
other path falls through to the singular-error check. -/
def processParsedBody (interp : String → JSValue → String) (tmpl : String)
    (rootTypeName fieldName : String) (rt : ReturnTypeModel) (body : JSValue) :
    ResolveOutcome :=
  let errors := jsOr (jsGet body "errors") (jsGet body "_errors")
  if truthy (jsLengthChain errors) && !typeDeclaresField rt "errors" then
    match errors with
    | .arr l =>
      .aggregate (l.map (normalizeError interp tmpl))
        (rootTypeName ++ "." ++ fieldName ++ " failed")
    | _ => .jsTypeError
  else singularErrorCheck interp tmpl rt body

/-- Embedding of the response handling of the HTTP resolver from the
point the body text is available: a body that fails to parse as JSON is
returned verbatim for scalar return types and thrown raw otherwise; a
parsed body goes through error detection with the configured error
message template, defaulted to the literal message when absent or empty.
The parameter parseJSON stands for the external JSON.parse. -/
def handleResponseText (interp : String → JSValue → String)
    (parseJSON : String → Option JSValue) (errorMessage : Option String)
    (rootTypeName fieldName : String) (rt : ReturnTypeModel)
    (responseText : String) : ResolveOutcome :=
  match parseJSON responseText with
  | none =>
    if rt.isScalarType then .data (.str responseText)
    else .rawThrow responseText
  | some responseJson =>
    let errorMessageTemplate :=
      match errorMessage with
      | some s => if s != "" then s else "message"
      | none => "message"
    processParsedBody interp errorMessageTemplate rootTypeName fieldName rt responseJson

/-- Title JavaScript assigns to a generated schema: the configured type
name, or the undefined value when none was configured (the source
assigns the possibly-undefined name unconditionally). -/
def titleValue : Option String → JSValue
  | some t => .str t
  | none => .undefinedJS

/-- Response-side property of one operation in buildFinalJSONSchema: a
bare reference object when responseSchema is set, otherwise the inferred
schema of the read sample with the configured title, otherwise a bare
object placeholder with the configured title.  A failing sample read is
rethrown with the responseSample tag.  The parameters read and toSchema
stand for the external readFileOrUrl and to-json-schema. -/
def responseProperty (read : String → Except String JSValue)
    (toSchema : JSValue → JSValue) (op : JSONSchemaOperationConfig) :
    Except String JSValue :=
  match op.responseSchema with
  | some r => .ok (.obj [("$ref", .str r)])
  | none =>
    match op.responseSample with
    | some p =>
      match read p with
      | .ok sample => .ok (objSet (toSchema sample) "title" (titleValue op.responseTypeName))
      | .error m => .error ("responseSample - " ++ m)
    | none => .ok (objSet (.obj [("type", .str "object")]) "title" (titleValue op.responseTypeName))

/-- Request-side property of one operation, mirroring the response side
except that an operation with neither requestSchema nor requestSample
contributes no property at all, and the failing-read message carries the
requestSample path. -/
def requestProperty (read : String → Except String JSValue)
    (toSchema : JSValue → JSValue) (op : JSONSchemaOperationConfig) :
    Except String (Option JSValue) :=
  match op.requestSchema with
  | some r => .ok (some (.obj [("$ref", .str r)]))
  | none =>
    match op.requestSample with
    | some q =>
      match read q with
      | .ok sample => .ok (some (objSet (toSchema sample) "title" (titleValue op.requestTypeName)))
      | .error m => .error ("requestSample:" ++ q ++ " cannot be read - " ++ m)
    | none => .ok none

/-- One iteration of the operation loop of buildFinalJSONSchema: the
properties object gains (or reuses, via the or-else defaulting of the
source) the root type definition keyed by the operation type, whose
properties gain the response-side schema under the field name; then the
matching Input definition keyed by the operation type plus the Input
suffix is created or reused, and gains the request-side property when
one exists.  Errors from either sample read abort the iteration. -/
def processOperation (read : String → Except String JSValue)
    (toSchema : JSValue → JSValue) (schema : JSValue)
    (op : JSONSchemaOperationConfig) : Except String JSValue :=
  let md := getOperationMetadata op
  let props0 := jsGet schema "properties"
  let rootDef0 := jsOr (jsGet props0 md.operationType)
    (.obj [("type", .str "object"), ("title", .str md.rootTypeName),
      ("properties", .obj [])])
  let rootDef1 := objSet rootDef0 "properties" (jsOr (jsGet rootDef0 "properties") (.obj []))
  match responseProperty read toSchema op with
  | .error e => .error e
  | .ok respProp =>
    let rootDef2 := objSet rootDef1 "properties"
      (objSet (jsGet rootDef1 "properties") md.fieldName respProp)
    let props1 := objSet props0 md.operationType rootDef2
    let inputKey := md.operationType ++ "Input"
    let inputDef0 := jsOr (jsGet props1 inputKey)
      (.obj [("type", .str "object"), ("title", .str (md.rootTypeName ++ "Input")),
        ("properties", .obj [])])
    match requestProperty read toSchema op with
    | .error e => .error e
    | .ok none => .ok (objSet schema "properties" (objSet props1 inputKey inputDef0))
    | .ok (some reqProp) =>
      let inputDef1 := objSet inputDef0 "properties"
        (objSet (jsGet inputDef0 "properties") md.fieldName reqProp)
      .ok (objSet schema "properties" (objSet props1 inputKey inputDef1))

/-- Skeleton the loop starts from: an object schema titled _schema with
empty properties and the query requirement. -/
def initialComposite : JSValue :=
  .obj [("type", .str "object"), ("title", .str "_schema"),
    ("properties", .obj []), ("required", .arr [.str "query"])]

/-- The operation loop of buildFinalJSONSchema over the composite
schema. -/
def buildCompositeLoop (read : String → Except String JSValue)
    (toSchema : JSValue → JSValue) :
    JSValue → List JSONSchemaOperationConfig → Except String JSValue
  | schema, [] => .ok schema
  | schema, op :: rest =>
    match processOperation read toSchema schema op with
    | .error e => .error e
    | .ok s2 => buildCompositeLoop read toSchema s2 rest

/-- Embedding of buildFinalJSONSchema: the loop from the skeleton, then
the dereference, heal and re-reference pipeline (external json-machete
functions passed as parameters) applied only on success. -/
def buildFinalJSONSchema (read : String → Except String JSValue)
    (toSchema : JSValue → JSValue) (deref heal reref : JSValue → JSValue)
    (ops : List JSONSchemaOperationConfig) : Except String JSValue :=
  match buildCompositeLoop read toSchema initialComposite ops with
  | .error e => .error e
  | .ok s => .ok (reref (heal (deref s)))

/-- Lookup of the property emitted for one operation: the entry under
the operation type in the composite properties, then under the field
name in that definition's properties. -/
def compositeFieldSchema (schema : JSValue) (opType fieldName : String) : Option JSValue :=
  objGet (jsGet (jsGet (jsGet schema "properties") opType) "properties") fieldName

/-- Values the or-else defaulting of the loop tolerates in a properties
slot: an object, or anything falsy (then the default object is used). -/
def objOrFalsy (v : JSValue) : Prop :=
  (∃ fs, v = .obj fs) ∨ truthy v = false

/-- Shape every state of the operation loop has: an object schema whose
properties member is an object, each of whose entries is an object with
an object-or-falsy properties member. -/
def wellFormedState (schema : JSValue) : Prop :=
  ∃ fs ps, schema = .obj fs ∧ jsGet schema "properties" = .obj ps
    ∧ ∀ kv ∈ ps, (∃ dfs, kv.2 = .obj dfs) ∧ objOrFalsy (jsGet kv.2 "properties")

/-- Prefix test on character lists. -/
def startsSeq : List Char → List Char → Bool
  | _, [] => true
  | [], _ :: _ => false
  | c :: cs, d :: ds => c = d && startsSeq cs ds

/-- Occurrence test of one character sequence inside another. -/
def hasSeq : List Char → List Char → Bool
  | [], needle => needle.isEmpty
  | c :: rest, needle => startsSeq (c :: rest) needle || hasSeq rest needle

/-- Substring test used to state that an error message does not carry a
field name. -/
def mentions (hay needle : String) : Bool :=
  hasSeq hay.data needle.data

/-- Success recognizer for a composite-schema build result. -/
def isOkSchema : Except String JSValue → Bool
  | .ok _ => true
  | .error _ => false

/-- Field-schema lookup through a build result; none on an error. -/
def compositeFieldSchemaOfResult :
    Except String JSValue → String → String → Option JSValue
  | .ok f, t, n => compositeFieldSchema f t n
  | .error _, _, _ => none

/-- Sample reader that fails on every path, for concrete theorems. -/
def readBoom : String → Except String JSValue := fun _ => .error "boom"

/-- Operation whose response sample cannot be read. -/
def sampleOpC8 : JSONSchemaOperationConfig :=
  { type := "query", field := "fooField", responseSample := some "sample.json" }

/-- Operation with a response reference and a failing request sample. -/
def reqSampleOpC8 : JSONSchemaOperationConfig :=
  { type := "query", field := "fooField", responseSchema := some "resp.json",
    requestSample := some "req.json" }

/-- Operation with an explicit response schema reference. -/
def refOpC9 : JSONSchemaOperationConfig :=
  { type := "query", field := "getUser", responseSchema := some "user.json" }

/-- Composite build over the single reference operation, under a reader
that fails on every path; it must succeed because no sample is read. -/
def c9BuildResult : Except String JSValue :=
  buildCompositeLoop readBoom id initialComposite [refOpC9]

/-- Environment lookup, modelling process.env as a key-value list; a
missing variable is undefined, hence falsy. -/
def lookupEnv (env : List (String × String)) (name : String) : Option String :=
  (env.find? (fun kv => kv.1 = name)).map (fun kv => kv.2)

/-- Replacement computed by the customLoader callback for one captured
placeholder body: everything before the first colon names the variable,
everything after it is the default (itself allowed to contain colons),
and a falsy environment value (missing or empty) falls back to the
default, which is empty when no colon occurs. -/
def substituteVar (env : List (String × String)) (inner : List Char) : String :=
  let hasColon := inner.contains ':'
  let varName :=
    if hasColon then String.mk (inner.takeWhile (fun c => c ≠ ':'))
    else String.mk inner
  let defaultValue :=
    if hasColon then String.mk ((inner.dropWhile (fun c => c ≠ ':')).drop 1) else ""
  match lookupEnv env varName with
  | some v => if v ≠ "" then v else defaultValue
  | none => defaultValue

/-- Lazy capture of the placeholder regex after an opening dollar-brace:
the shortest run of characters up to a closing brace, failing when a line
terminator or the end of input comes first, exactly as the non-greedy
dot-star of the source pattern behaves. -/
def spanToBrace : List Char → Option (List Char × List Char)
  | [] => none
  | c :: rest =>
    if c = '}' then some ([], rest)
    else if c = '\n' ∨ c = '\r' ∨ c = Char.ofNat 8232 ∨ c = Char.ofNat 8233 then
      none
    else (spanToBrace rest).map (fun p => (c :: p.1, p.2))

/-- Scanner of the global regex replace of customLoader.  The fuel
argument only bounds the recursion for the termination checker: every
step consumes at least one character, so fuel equal to the input length,
as interpolateContent supplies, is never exhausted.  A dollar-brace
start whose capture fails resumes scanning one character later, as the
regex engine does. -/
def interpGoFuel (env : List (String × String)) : Nat → List Char → List Char
  | _, [] => []
  | 0, cs => cs
  | fuel + 1, '$' :: '{' :: rest =>
    match spanToBrace rest with
    | some (inner, rest2) =>
      (substituteVar env inner).data ++ interpGoFuel env fuel rest2
    | none => '$' :: interpGoFuel env fuel ('{' :: rest)
  | fuel + 1, c :: rest => c :: interpGoFuel env fuel rest

/-- Embedding of the environment-variable substitution customLoader
applies to a configuration file body before handing it to the format
loader. -/
def interpolateContent (env : List (String × String)) (content : String) : String :=
  String.mk (interpGoFuel env content.data.length content.data)

end Mesh

namespace Mesh

/-- Interpolator standing for stringInterpolator.parse on a template with
no placeholders, which comes back unchanged; used by concrete
theorems. -/
def interpConst : String → JSValue → String := fun tmpl _ => tmpl

/-- Example configs used by concrete theorems. -/
def pubsubTopicConfig : JSONSchemaOperationConfig :=
  { type := "subscription", field := "onEvent", pubsubTopic := some "todo-added" }

def miscasedKeyConfig : JSONSchemaOperationConfig :=
  { type := "subscription", field := "onEvent", pubSubTopic := some "todo-added" }

def httpSubscriptionConfig : JSONSchemaOperationConfig :=
  { type := "subscription", field := "watch", path := some "/watch" }

/-- Merged header list carrying two spellings of the content type name;
JavaScript objects keep both keys because they differ as strings. -/
def dupContentTypeHeaders : List (String × String) :=
  [("Content-Type", "application/json"),
   ("content-type", "application/x-www-form-urlencoded")]

/-- Small record input used by concrete request-building theorems. -/
def smallInput : JSValue := .obj [("a", .str "1")]

/-- Composite return type without errors or error fields. -/
def rtPlain : ReturnTypeModel := { isScalarType := false, getFields := some ["data"] }

/-- Composite return type that itself declares an errors field. -/
def rtWithErrors : ReturnTypeModel :=
  { isScalarType := false, getFields := some ["errors", "data"] }

/-- Scalar return type (no getFields member). -/
def rtScalar : ReturnTypeModel := { isScalarType := true, getFields := none }

/-- Response body whose errors field is an empty array. -/
def bodyEmptyErrors : JSValue := .obj [("errors", .arr [])]

/-- Response body carrying one error entry under errors. -/
def bodyErrorsX : JSValue :=
  .obj [("errors", .arr [.obj [("message", .str "x")]])]

/-- Response body whose errors field is null while _errors carries an
entry. -/
def bodyNullErrors : JSValue :=
  .obj [("errors", .null), ("_errors", .arr [.obj [("message", .str "x")]])]

/-- Parse function standing for JSON.parse on unparseable text. -/
def parseNoneJSON : String → Option JSValue := fun _ => none

end Mesh

/-- C1: the claim says an operation is classified pubsub-kind exactly when
its config carries a pubsubTopic property.  The code instead probes the
key pubSubTopic (capital S), which the declared interfaces never use: a
config that carries pubsubTopic, as every well-typed pubsub config does,
is not classified pubsub-kind and, lacking a path, gets no binding at
all, while a config carrying only the miscased key is classified
pubsub-kind.  This contradicts the type-guard annotation and the uses of
operationConfig.pubsubTopic inside the pubsub branch, so it is a bug in
the code rather than in the claim. -/
theorem c1_pubsub_classification_misses_pubsubTopic :
    Mesh.pubsubTopicConfig.pubsubTopic = some "todo-added"
    ∧ Mesh.isPubSubOperationConfig Mesh.pubsubTopicConfig = false
    ∧ Mesh.bindingKind Mesh.pubsubTopicConfig = Mesh.BindingKind.noBinding
    ∧ Mesh.miscasedKeyConfig.pubsubTopic = none
    ∧ Mesh.isPubSubOperationConfig Mesh.miscasedKeyConfig = true := by
  refine ⟨rfl, rfl, rfl, rfl, rfl⟩

/-- C2 counterexample: an HTTP-kind config with declared type
subscription carries no pubsubTopic, so the claim places it in the
catch-all Query case, but getOperationMetadata maps every lowercased type
other than query to Mutation. -/
theorem c2_counterexample_subscription_type_maps_to_Mutation :
    Mesh.httpSubscriptionConfig.pubsubTopic = none
    ∧ Mesh.httpSubscriptionConfig.type = "subscription"
    ∧ (Mesh.getOperationMetadata Mesh.httpSubscriptionConfig).rootTypeName = "Mutation"
    ∧ (Mesh.getOperationMetadata Mesh.httpSubscriptionConfig).rootTypeName ≠ "Query" := by
  refine ⟨rfl, rfl, by decide, by decide⟩

/-- C2 amended: the root type is Subscription exactly for configs that
carry the literal key pubSubTopic (which also forces a null HTTP method),
Query when the lowercased declared type is query, and Mutation in every
other case; the HTTP method of a non-pubSubTopic config is the explicit
method when present, otherwise POST when the lowercased type is mutation
and GET otherwise. -/
theorem c2_getOperationMetadata_amended (c : Mesh.JSONSchemaOperationConfig) :
    (Mesh.isPubSubOperationConfig c = true →
      (Mesh.getOperationMetadata c).rootTypeName = "Subscription"
      ∧ (Mesh.getOperationMetadata c).httpMethod = none)
    ∧ (Mesh.isPubSubOperationConfig c = false → Mesh.toLowerCaseJS c.type = "query" →
      (Mesh.getOperationMetadata c).rootTypeName = "Query")
    ∧ (Mesh.isPubSubOperationConfig c = false → Mesh.toLowerCaseJS c.type ≠ "query" →
      (Mesh.getOperationMetadata c).rootTypeName = "Mutation")
    ∧ (Mesh.isPubSubOperationConfig c = false → ∀ m, c.method = some m →
      (Mesh.getOperationMetadata c).httpMethod = some m)
    ∧ (Mesh.isPubSubOperationConfig c = false → c.method = none →
      (Mesh.getOperationMetadata c).httpMethod =
        (if Mesh.toLowerCaseJS c.type = "mutation" then some "POST" else some "GET"))
    ∧ (Mesh.getOperationMetadata c).fieldName = c.field := by
  refine ⟨?_, ?_, ?_, ?_, ?_, ?_⟩
  · intro h
    simp [Mesh.getOperationMetadata, h]
  · intro h hq
    simp [Mesh.getOperationMetadata, h, hq]
  · intro h hq
    simp [Mesh.getOperationMetadata, h, hq]
  · intro h m hm
    simp [Mesh.getOperationMetadata, h, hm]
  · intro h hm
    simp [Mesh.getOperationMetadata, h, hm]
  · by_cases h : Mesh.isPubSubOperationConfig c <;>
      simp [Mesh.getOperationMetadata, h]

/-- C2 witness: the amended theorem applied to concrete configs. -/
theorem c2_getOperationMetadata_amended_witness :
    (Mesh.getOperationMetadata Mesh.miscasedKeyConfig).rootTypeName = "Subscription"
    ∧ (Mesh.getOperationMetadata Mesh.httpSubscriptionConfig).rootTypeName = "Mutation"
    ∧ (Mesh.getOperationMetadata Mesh.httpSubscriptionConfig).httpMethod = some "GET" := by
  refine ⟨((c2_getOperationMetadata_amended Mesh.miscasedKeyConfig).1 rfl).1, ?_, ?_⟩
  · exact (c2_getOperationMetadata_amended Mesh.httpSubscriptionConfig).2.2.1 rfl (by decide)
  · have h := (c2_getOperationMetadata_amended Mesh.httpSubscriptionConfig).2.2.2.2.1 rfl rfl
    rw [h]
    decide

namespace Mesh

/-- Finding a key other than the deleted one is unaffected by the
deletion pass of setParam. -/
lemma find?_filter_ne_key (k k' : String) (h : k' ≠ k) (l : List (String × String)) :
    (l.filter (fun q => q.1 ≠ k)).find? (fun q => q.1 = k')
      = l.find? (fun q => q.1 = k') := by
  induction l with
  | nil => rfl
  | cons p rest ih =>
    by_cases hp : p.1 = k
    · have hp' : ¬(p.1 = k') := fun hk => h (hk.symm.trans hp)
      rw [List.filter_cons_of_neg (by simp [hp]),
        List.find?_cons_of_neg rest (by simp [hp'])]
      exact ih
    · by_cases hq : p.1 = k'
      · rw [List.filter_cons_of_pos (by simp [hp]),
          List.find?_cons_of_pos _ (by simp [hq]),
          List.find?_cons_of_pos rest (by simp [hq])]
      · rw [List.filter_cons_of_pos (by simp [hp]),
          List.find?_cons_of_neg _ (by simp [hq]),
          List.find?_cons_of_neg rest (by simp [hq])]
        exact ih

/-- Looking up the key just set yields the new value. -/
lemma lookupParam_setParam_self (ps : List (String × String)) (k v : String) :
    lookupParam (setParam ps k v) k = some v := by
  induction ps with
  | nil =>
    simp [setParam, lookupParam]
  | cons p rest ih =>
    by_cases hp : p.1 = k
    · rw [setParam, if_pos hp]
      simp [lookupParam, List.find?_cons_of_pos _ (by simp : decide (k = k) = true)]
    · rw [setParam, if_neg hp]
      unfold lookupParam
      rw [List.find?_cons_of_neg _ (by simp [hp])]
      exact ih

/-- Setting one key leaves the lookup of any other key unchanged. -/
lemma lookupParam_setParam_ne (ps : List (String × String)) (k v k' : String)
    (h : k' ≠ k) :
    lookupParam (setParam ps k v) k' = lookupParam ps k' := by
  have hks : ¬(k = k') := fun hk => h hk.symm
  induction ps with
  | nil =>
    unfold setParam lookupParam
    rw [List.find?_cons_of_neg _ (by simp [hks])]
  | cons p rest ih =>
    by_cases hp : p.1 = k
    · have hp' : ¬(p.1 = k') := fun hk => h (hk.symm.trans hp)
      rw [setParam, if_pos hp]
      unfold lookupParam
      rw [List.find?_cons_of_neg _ (by simp [hks]),
        List.find?_cons_of_neg rest (by simp [hp']),
        find?_filter_ne_key k k' h rest]
    · rw [setParam, if_neg hp]
      by_cases hq : p.1 = k'
      · unfold lookupParam
        rw [List.find?_cons_of_pos _ (by simp [hq]),
          List.find?_cons_of_pos rest (by simp [hq])]
      · unfold lookupParam
        rw [List.find?_cons_of_neg _ (by simp [hq]),
          List.find?_cons_of_neg rest (by simp [hq])]
        exact ih

/-- Folding setParam over pairs whose keys all differ from a key leaves
that lookup unchanged. -/
lemma lookupParam_foldl_not_mem (entries : List (String × String))
    (ps : List (String × String)) (k : String)
    (h : ∀ kv ∈ entries, kv.1 ≠ k) :
    lookupParam (entries.foldl (fun acc kv => setParam acc kv.1 kv.2) ps) k
      = lookupParam ps k := by
  induction entries generalizing ps with
  | nil => rfl
  | cons e rest ih =>
    have hrest : ∀ kv ∈ rest, kv.1 ≠ k := fun kv hm => h kv (by simp [hm])
    have hk : k ≠ e.1 := fun hk => h e (by simp) hk.symm
    calc lookupParam ((e :: rest).foldl (fun acc kv => setParam acc kv.1 kv.2) ps) k
        = lookupParam (rest.foldl (fun acc kv => setParam acc kv.1 kv.2)
            (setParam ps e.1 e.2)) k := rfl
      _ = lookupParam (setParam ps e.1 e.2) k := ih _ hrest
      _ = lookupParam ps k := lookupParam_setParam_ne ps e.1 e.2 k hk

/-- Folding setParam over pairs with pairwise distinct keys makes every
folded pair retrievable. -/
lemma lookupParam_foldl_mem (entries : List (String × String))
    (ps : List (String × String))
    (hnd : (entries.map Prod.fst).Nodup)
    (kv : String × String) (hm : kv ∈ entries) :
    lookupParam (entries.foldl (fun acc p => setParam acc p.1 p.2) ps) kv.1
      = some kv.2 := by
  induction entries generalizing ps with
  | nil => cases hm
  | cons e rest ih =>
    rcases List.mem_cons.mp hm with he | hrest
    · subst he
      have hnot : ∀ p ∈ rest, p.1 ≠ kv.1 := by
        intro p hp hpk
        have hmem : kv.1 ∈ rest.map Prod.fst := List.mem_map.mpr ⟨p, hp, hpk⟩
        exact (List.nodup_cons.mp hnd).1 hmem
      calc lookupParam ((kv :: rest).foldl (fun acc p => setParam acc p.1 p.2) ps) kv.1
          = lookupParam (rest.foldl (fun acc p => setParam acc p.1 p.2)
              (setParam ps kv.1 kv.2)) kv.1 := rfl
        _ = lookupParam (setParam ps kv.1 kv.2) kv.1 :=
            lookupParam_foldl_not_mem rest _ kv.1 hnot
        _ = some kv.2 := lookupParam_setParam_self _ kv.1 kv.2
    · exact ih _ (List.nodup_cons.mp hnd).2 hrest

end Mesh

/-- C5 counterexample: the claim keys the form serialization on the
existence of some header whose name lowercases to content-type with a
form value, and lets any non-null input reach serialization.  The code
instead takes the first header whose name lowercases to content-type,
here the JSON one, so the body is flattened JSON although a form-typed
header exists; and a non-null but falsy input, here the number 0, skips
serialization entirely, so a POST gets no body at all. -/
theorem c5_counterexample_first_content_type_header_wins :
    (Mesh.dupContentTypeHeaders.any (fun kv =>
        Mesh.toLowerCaseJS kv.1 = "content-type"
          && Mesh.startsWithJS kv.2 "application/x-www-form-urlencoded") = true)
    ∧ Mesh.buildRequest "POST" Mesh.smallInput Mesh.dupContentTypeHeaders []
        = .ok { searchParams := [], body := some (.flatJson Mesh.smallInput) }
    ∧ Mesh.JSValue.num 0 ≠ Mesh.JSValue.null
    ∧ Mesh.buildRequest "POST" (.num 0) [] []
        = .ok { searchParams := [], body := none } := by
  exact ⟨by decide, rfl, fun hc => Mesh.JSValue.noConfusion hc, rfl⟩

/-- C5 amended: for a truthy resolved input, a bodyless-method request
writes every input key into the query parameters, overwriting any
existing parameter of the same name, and sets no body; a body-method
request keeps the query parameters and serializes the input as an
urlencoded form exactly when the first header whose name lowercases to
content-type has a value starting with the form media type, and as
flattened JSON otherwise. -/
theorem c5_input_serialization_amended (m : String) (input : Mesh.JSValue)
    (entries : List (String × Mesh.JSValue))
    (headers q0 : List (String × String)) :
    (["GET", "HEAD", "CONNECT", "OPTIONS", "TRACE"].contains m = true →
      (entries.map Prod.fst).Nodup →
      Mesh.isOkRequest (Mesh.buildRequest m (.obj entries) headers q0) = true
      ∧ Mesh.builtBody (Mesh.buildRequest m (.obj entries) headers q0) = none
      ∧ ∀ kv ∈ entries,
          Mesh.lookupParam
            (Mesh.builtSearchParams (Mesh.buildRequest m (.obj entries) headers q0))
            kv.1 = some (Mesh.jsToUSV kv.2))
    ∧ (["POST", "PUT", "PATCH", "DELETE"].contains m = true →
      Mesh.truthy input = true →
      Mesh.buildRequest m input headers q0
        = .ok ⟨q0, some (Mesh.expectedBodySerialization headers input)⟩) := by
  constructor
  · intro hm hnd
    have htr : Mesh.truthy (Mesh.JSValue.obj entries) = true := rfl
    rw [Mesh.buildRequest, if_pos htr, if_pos hm]
    refine ⟨rfl, rfl, ?_⟩
    intro kv hkv
    have hmem : (kv.1, Mesh.jsToUSV kv.2) ∈
        Mesh.urlSearchParamsOf (Mesh.JSValue.obj entries) := by
      simp only [Mesh.urlSearchParamsOf]
      exact List.mem_map.mpr ⟨kv, hkv, rfl⟩
    have hkeys : ((Mesh.urlSearchParamsOf (Mesh.JSValue.obj entries)).map Prod.fst).Nodup := by
      simp only [Mesh.urlSearchParamsOf, List.map_map]
      exact hnd
    have := Mesh.lookupParam_foldl_mem
      (Mesh.urlSearchParamsOf (Mesh.JSValue.obj entries)) q0 hkeys
      (kv.1, Mesh.jsToUSV kv.2) hmem
    simpa using this
  · intro hm htr
    have hnotget : (["GET", "HEAD", "CONNECT", "OPTIONS", "TRACE"].contains m) = false := by
      rcases (by simpa using hm :
          m = "POST" ∨ m = "PUT" ∨ m = "PATCH" ∨ m = "DELETE") with h | h | h | h <;>
        subst h <;> decide
    rw [Mesh.buildRequest, if_pos htr, if_neg (by rw [hnotget]; simp), if_pos hm]
    unfold Mesh.expectedBodySerialization
    cases hct : Mesh.contentTypeHeader headers with
    | none => simp
    | some v =>
      by_cases hform : Mesh.startsWithJS v "application/x-www-form-urlencoded"
      · simp [hform]
      · simp [hform]

/-- C5 witness: the amended theorem applied to a concrete GET request
with one input key shadowing an existing query parameter, and to a
concrete POST without any content-type header. -/
theorem c5_input_serialization_amended_witness :
    Mesh.lookupParam
      (Mesh.builtSearchParams
        (Mesh.buildRequest "GET" Mesh.smallInput [] [("a", "0"), ("b", "2")]))
      "a" = some "1"
    ∧ Mesh.builtBody
        (Mesh.buildRequest "GET" Mesh.smallInput [] [("a", "0"), ("b", "2")]) = none
    ∧ Mesh.buildRequest "POST" Mesh.smallInput [] []
        = .ok { searchParams := [], body := some (.flatJson Mesh.smallInput) } := by
  refine ⟨?_, ?_, ?_⟩
  · exact ((c5_input_serialization_amended "GET" Mesh.smallInput
      [("a", Mesh.JSValue.str "1")] [] [("a", "0"), ("b", "2")]).1
      (by decide) (by decide)).2.2 ("a", Mesh.JSValue.str "1")
      (List.mem_singleton.mpr rfl)
  · exact ((c5_input_serialization_amended "GET" Mesh.smallInput
      [("a", Mesh.JSValue.str "1")] [] [("a", "0"), ("b", "2")]).1
      (by decide) (by decide)).2.1
  · exact (c5_input_serialization_amended "POST" Mesh.smallInput [] [] []).2
      (by decide) rfl

/-- C6 counterexample: with a falsy resolved input, here undefined, the
serialization switch is skipped, so an unknown method raises no error at
all and the request is issued as built. -/
theorem c6_counterexample_unknown_method_without_input :
    Mesh.knownHttpMethods.contains "BREW" = false
    ∧ Mesh.buildRequest "BREW" .undefinedJS [] []
        = .ok { searchParams := [], body := none } := by
  exact ⟨by decide, rfl⟩

/-- C6 amended: with a truthy resolved input, a method outside the nine
handled names makes the resolver raise the unknown-method error naming
that method. -/
theorem c6_unknown_method_amended (m : String) (input : Mesh.JSValue)
    (headers q0 : List (String × String))
    (hm : Mesh.knownHttpMethods.contains m = false)
    (hin : Mesh.truthy input = true) :
    Mesh.buildRequest m input headers q0 = .error ("Unknown method " ++ m) := by
  have hmem := hm
  simp [Mesh.knownHttpMethods] at hmem
  obtain ⟨h1, h2, h3, h4, h5, h6, h7, h8, h9⟩ := hmem
  rw [Mesh.buildRequest, if_pos hin,
    if_neg (by simp [h1, h2, h3, h4, h5]),
    if_neg (by simp [h6, h7, h8, h9])]

/-- C6 witness: the amended theorem at a concrete unknown method. -/
theorem c6_unknown_method_amended_witness :
    Mesh.buildRequest "BREW" Mesh.smallInput [] []
      = .error ("Unknown method " ++ "BREW") :=
  c6_unknown_method_amended "BREW" Mesh.smallInput [] [] (by decide) rfl

namespace Mesh

/-- The singular-error check never yields the aggregated outcome. -/
lemma singularErrorCheck_not_aggregate (interp : String → JSValue → String)
    (tmpl : String) (rt : ReturnTypeModel) (body : JSValue) :
    (singularErrorCheck interp tmpl rt body).isAggregate = false := by
  by_cases h1 : truthy (jsGet body "error")
  · by_cases h2 : typeDeclaresField rt "error"
    · simp [singularErrorCheck, h1, h2, ResolveOutcome.isAggregate]
    · simp [singularErrorCheck, h1, h2, ResolveOutcome.isAggregate]
  · simp [singularErrorCheck, h1, ResolveOutcome.isAggregate]

end Mesh

/-- C4: a response body that does not parse as JSON is returned verbatim
when the declared return type is a scalar and thrown raw otherwise,
for every interpolator, parse function, error-message option and
field. -/
theorem c4_unparseable_body_scalar_or_throw
    (interp : String → Mesh.JSValue → String)
    (parseJSON : String → Option Mesh.JSValue) (errorMessage : Option String)
    (rtn fn : String) (rt : Mesh.ReturnTypeModel) (text : String)
    (hp : parseJSON text = none) :
    Mesh.handleResponseText interp parseJSON errorMessage rtn fn rt text
      = (if rt.isScalarType then .data (.str text) else .rawThrow text) := by
  simp [Mesh.handleResponseText, hp]

/-- C4 witness: the theorem at the spec examples, a scalar-typed field
resolving to the literal text and a composite-typed field throwing it. -/
theorem c4_unparseable_body_scalar_or_throw_witness :
    Mesh.handleResponseText Mesh.interpConst Mesh.parseNoneJSON none
      "Query" "foo" Mesh.rtScalar "plain text" = .data (.str "plain text")
    ∧ Mesh.handleResponseText Mesh.interpConst Mesh.parseNoneJSON none
      "Query" "foo" Mesh.rtPlain "plain text" = .rawThrow "plain text" := by
  constructor
  · have h := c4_unparseable_body_scalar_or_throw Mesh.interpConst
      Mesh.parseNoneJSON none "Query" "foo" Mesh.rtScalar "plain text" rfl
    simpa using h
  · have h := c4_unparseable_body_scalar_or_throw Mesh.interpConst
      Mesh.parseNoneJSON none "Query" "foo" Mesh.rtPlain "plain text" rfl
    simpa using h

/-- C3 counterexample: a body whose errors field is the empty array is an
array-valued errors field against a return type without an errors field,
yet the resolver returns the body unchanged instead of producing an
aggregated error, because the branch requires a truthy length. -/
theorem c3_counterexample_empty_errors_array :
    Mesh.jsGet Mesh.bodyEmptyErrors "errors" = .arr []
    ∧ Mesh.typeDeclaresField Mesh.rtPlain "errors" = false
    ∧ Mesh.processParsedBody Mesh.interpConst "message" "Query" "foo"
        Mesh.rtPlain Mesh.bodyEmptyErrors = .data Mesh.bodyEmptyErrors :=
  ⟨rfl, rfl, rfl⟩

/-- C3 amended: a body whose errors field is a non-empty array, against a
return type not declaring errors, yields one aggregated error over the
normalized entries; when the return type declares errors the aggregation
is skipped and the body comes back unchanged provided the singular check
does not fire; and a truthy singular error against a return type not
declaring error comes back as that entry normalized whenever the
aggregated branch did not fire. -/
theorem c3_error_detection_amended (interp : String → Mesh.JSValue → String)
    (tmpl rtn fn : String) (rt : Mesh.ReturnTypeModel) (body : Mesh.JSValue) :
    (∀ l, Mesh.jsGet body "errors" = .arr l → l ≠ [] →
      Mesh.typeDeclaresField rt "errors" = false →
      Mesh.processParsedBody interp tmpl rtn fn rt body
        = .aggregate (l.map (Mesh.normalizeError interp tmpl))
            (rtn ++ "." ++ fn ++ " failed"))
    ∧ (Mesh.typeDeclaresField rt "errors" = true →
      (Mesh.truthy (Mesh.jsGet body "error") = false
        ∨ Mesh.typeDeclaresField rt "error" = true) →
      Mesh.processParsedBody interp tmpl rtn fn rt body = .data body)
    ∧ (Mesh.truthy (Mesh.jsGet body "error") = true →
      Mesh.typeDeclaresField rt "error" = false →
      (Mesh.truthy (Mesh.jsLengthChain
          (Mesh.jsOr (Mesh.jsGet body "errors") (Mesh.jsGet body "_errors"))) = false
        ∨ Mesh.typeDeclaresField rt "errors" = true) →
      Mesh.processParsedBody interp tmpl rtn fn rt body
        = .single (Mesh.normalizeError interp tmpl (Mesh.jsGet body "error"))) := by
  refine ⟨?_, ?_, ?_⟩
  · intro l hl hne hdecl
    have h0 : l.length ≠ 0 := fun h => hne (List.length_eq_zero.mp h)
    simp [Mesh.processParsedBody, hl, Mesh.jsOr, Mesh.truthy, Mesh.jsLengthChain,
      hdecl, h0]
  · intro hdecl hor
    rcases hor with h | h <;>
      simp [Mesh.processParsedBody, Mesh.singularErrorCheck, hdecl, h]
  · intro herr hnoerr hor
    rcases hor with h | h <;>
      simp [Mesh.processParsedBody, Mesh.singularErrorCheck, herr, hnoerr, h]

/-- C3 witness: the amended theorem at the spec example body against both
return types. -/
theorem c3_error_detection_amended_witness :
    Mesh.processParsedBody Mesh.interpConst "message" "Query" "foo"
      Mesh.rtPlain Mesh.bodyErrorsX
      = .aggregate
          ([Mesh.JSValue.obj [("message", .str "x")]].map
            (Mesh.normalizeError Mesh.interpConst "message"))
          ("Query" ++ "." ++ "foo" ++ " failed")
    ∧ Mesh.processParsedBody Mesh.interpConst "message" "Query" "foo"
        Mesh.rtWithErrors Mesh.bodyErrorsX = .data Mesh.bodyErrorsX := by
  constructor
  · exact (c3_error_detection_amended Mesh.interpConst "message" "Query" "foo"
      Mesh.rtPlain Mesh.bodyErrorsX).1
      [Mesh.JSValue.obj [("message", .str "x")]] rfl (by simp) rfl
  · exact (c3_error_detection_amended Mesh.interpConst "message" "Query" "foo"
      Mesh.rtWithErrors Mesh.bodyErrorsX).2.1 rfl (Or.inl rfl)

/-- C10 counterexample: the errors field is present but holds null, which
is not a non-empty array, yet aggregated-error detection still triggers
because the code falls back to _errors whenever errors is merely falsy,
not only when it is absent. -/
theorem c10_counterexample_null_errors_still_aggregates :
    Mesh.objGet Mesh.bodyNullErrors "errors" = some .null
    ∧ Mesh.isNonEmptyArr (Mesh.jsGet Mesh.bodyNullErrors "errors") = false
    ∧ (Mesh.processParsedBody Mesh.interpConst "message" "Query" "foo"
        Mesh.rtPlain Mesh.bodyNullErrors).isAggregate = true :=
  ⟨rfl, rfl, rfl⟩

/-- C10 amended: the resolver produces an aggregated error exactly when
the value of the errors field — or, when that value is falsy, of the
_errors field — is a non-empty array and the return type does not
declare errors; and a body whose errors field is an empty array with a
falsy error field is returned unchanged as data. -/
theorem c10_aggregate_trigger_amended (interp : String → Mesh.JSValue → String)
    (tmpl rtn fn : String) (rt : Mesh.ReturnTypeModel) (body : Mesh.JSValue) :
    ((Mesh.processParsedBody interp tmpl rtn fn rt body).isAggregate
      = (Mesh.isNonEmptyArr
          (Mesh.jsOr (Mesh.jsGet body "errors") (Mesh.jsGet body "_errors"))
        && !Mesh.typeDeclaresField rt "errors"))
    ∧ (Mesh.jsGet body "errors" = .arr [] →
      Mesh.truthy (Mesh.jsGet body "error") = false →
      Mesh.processParsedBody interp tmpl rtn fn rt body = .data body) := by
  constructor
  · cases he : Mesh.jsOr (Mesh.jsGet body "errors") (Mesh.jsGet body "_errors") with
    | undefinedJS =>
      simp [Mesh.processParsedBody, he, Mesh.jsLengthChain, Mesh.truthy,
        Mesh.isNonEmptyArr, Mesh.singularErrorCheck_not_aggregate]
    | null =>
      simp [Mesh.processParsedBody, he, Mesh.jsLengthChain, Mesh.truthy,
        Mesh.isNonEmptyArr, Mesh.singularErrorCheck_not_aggregate]
    | bool b =>
      simp [Mesh.processParsedBody, he, Mesh.jsLengthChain, Mesh.truthy,
        Mesh.isNonEmptyArr, Mesh.singularErrorCheck_not_aggregate]
    | num n =>
      simp [Mesh.processParsedBody, he, Mesh.jsLengthChain, Mesh.truthy,
        Mesh.isNonEmptyArr, Mesh.singularErrorCheck_not_aggregate]
    | str s =>
      by_cases hc : Mesh.truthy (Mesh.jsLengthChain (.str s))
          && !Mesh.typeDeclaresField rt "errors"
      · simp [Mesh.processParsedBody, he, hc, Mesh.ResolveOutcome.isAggregate,
          Mesh.isNonEmptyArr]
      · simp [Mesh.processParsedBody, he, hc,
          Mesh.singularErrorCheck_not_aggregate, Mesh.isNonEmptyArr]
    | obj fs =>
      by_cases hc : Mesh.truthy (Mesh.jsLengthChain (.obj fs))
          && !Mesh.typeDeclaresField rt "errors"
      · simp [Mesh.processParsedBody, he, hc, Mesh.ResolveOutcome.isAggregate,
          Mesh.isNonEmptyArr]
      · simp [Mesh.processParsedBody, he, hc,
          Mesh.singularErrorCheck_not_aggregate, Mesh.isNonEmptyArr]
    | arr l =>
      cases l with
      | nil =>
        simp [Mesh.processParsedBody, he, Mesh.jsLengthChain, Mesh.truthy,
          Mesh.isNonEmptyArr, Mesh.singularErrorCheck_not_aggregate]
      | cons a tl =>
        have hlen : ((tl.length : Int) + 1 ≠ 0) := by omega
        by_cases hd : Mesh.typeDeclaresField rt "errors"
        · simp [Mesh.processParsedBody, he, Mesh.jsLengthChain, Mesh.truthy, hd,
            Mesh.isNonEmptyArr, Mesh.singularErrorCheck_not_aggregate]
        · simp [Mesh.processParsedBody, he, Mesh.jsLengthChain, Mesh.truthy, hd,
            hlen, Mesh.isNonEmptyArr, Mesh.ResolveOutcome.isAggregate]
  · intro he herr
    have hor : Mesh.jsOr (Mesh.jsGet body "errors") (Mesh.jsGet body "_errors")
        = .arr [] := by
      rw [he]; rfl
    have h0 : Mesh.truthy (Mesh.jsLengthChain (Mesh.JSValue.arr [])) = false := rfl
    simp [Mesh.processParsedBody, hor, h0, Mesh.singularErrorCheck, herr]

/-- C10 witness: the amended theorem at the empty-errors body. -/
theorem c10_aggregate_trigger_amended_witness :
    Mesh.processParsedBody Mesh.interpConst "message" "Query" "foo"
      Mesh.rtPlain Mesh.bodyEmptyErrors = .data Mesh.bodyEmptyErrors :=
  (c10_aggregate_trigger_amended Mesh.interpConst "message" "Query" "foo"
    Mesh.rtPlain Mesh.bodyEmptyErrors).2 rfl rfl

/-- C7: a placeholder with an unbound variable yields its default, an
unbound variable without a default yields the empty string, and in a
multi-colon placeholder only the first segment names the variable while
the rest, colons included, is the default value. -/
theorem c7_placeholder_interpolation (env env2 : List (String × String))
    (v : String)
    (h1 : Mesh.lookupEnv env "name" = none)
    (h2 : Mesh.lookupEnv env "a" = none)
    (h3 : Mesh.lookupEnv env2 "a" = some v) (hv : v ≠ "") :
    Mesh.interpolateContent env "${name:default}" = "default"
    ∧ Mesh.interpolateContent env "${name}" = ""
    ∧ Mesh.interpolateContent env "${a:b:c}" = "b:c"
    ∧ Mesh.interpolateContent env2 "${a:b:c}" = v := by
  refine ⟨?_, ?_, ?_, ?_⟩
  · simp [Mesh.interpolateContent, Mesh.interpGoFuel, Mesh.spanToBrace,
      Mesh.substituteVar, h1]
  · simp [Mesh.interpolateContent, Mesh.interpGoFuel, Mesh.spanToBrace,
      Mesh.substituteVar, h1]
  · simp [Mesh.interpolateContent, Mesh.interpGoFuel, Mesh.spanToBrace,
      Mesh.substituteVar, h2]
  · simp [Mesh.interpolateContent, Mesh.interpGoFuel, Mesh.spanToBrace,
      Mesh.substituteVar, h3, hv]

/-- C7 witness: the theorem at an empty environment and at one binding a
to a non-empty value. -/
theorem c7_placeholder_interpolation_witness :
    Mesh.interpolateContent [] "${name:default}" = "default"
    ∧ Mesh.interpolateContent [] "${name}" = ""
    ∧ Mesh.interpolateContent [] "${a:b:c}" = "b:c"
    ∧ Mesh.interpolateContent [("a", "x")] "${a:b:c}" = "x" :=
  c7_placeholder_interpolation [] [("a", "x")] "x" rfl rfl rfl (by decide)

namespace Mesh

/-- Finding the key just set in an object yields the new value. -/
lemma find?_setKey_self (fs : List (String × JSValue)) (k : String) (v : JSValue) :
    (setKey fs k v).find? (fun kv => kv.1 = k) = some (k, v) := by
  induction fs with
  | nil => simp [setKey]
  | cons p rest ih =>
    by_cases hp : p.1 = k
    · rw [setKey, if_pos hp]
      exact List.find?_cons_of_pos _ (by simp)
    · rw [setKey, if_neg hp]
      rw [List.find?_cons_of_neg _ (by simp [hp])]
      exact ih

/-- Setting one key does not change the find result of another. -/
lemma find?_setKey_ne (fs : List (String × JSValue)) (k : String) (v : JSValue)
    (k' : String) (h : k' ≠ k) :
    (setKey fs k v).find? (fun kv => kv.1 = k') = fs.find? (fun kv => kv.1 = k') := by
  have hks : ¬(k = k') := fun hk => h hk.symm
  induction fs with
  | nil =>
    rw [setKey]
    rw [List.find?_cons_of_neg _ (by simp [hks])]
  | cons p rest ih =>
    by_cases hp : p.1 = k
    · have hp' : ¬(p.1 = k') := fun hk => h (hk.symm.trans hp)
      rw [setKey, if_pos hp]
      rw [List.find?_cons_of_neg _ (by simp [hks])]
      rw [List.find?_cons_of_neg _ (by simp [hp'])]
    · rw [setKey, if_neg hp]
      by_cases hq : p.1 = k'
      · rw [List.find?_cons_of_pos _ (by simp [hq]),
          List.find?_cons_of_pos _ (by simp [hq])]
      · rw [List.find?_cons_of_neg _ (by simp [hq]),
          List.find?_cons_of_neg _ (by simp [hq])]
        exact ih

/-- Property read after writing the same key on an object. -/
lemma jsGet_objSet_self (fs : List (String × JSValue)) (k : String) (v : JSValue) :
    jsGet (objSet (.obj fs) k v) k = v := by
  simp [objSet, jsGet, find?_setKey_self]

/-- Property read after writing a different key on an object. -/
lemma jsGet_objSet_ne (fs : List (String × JSValue)) (k : String) (v : JSValue)
    (k' : String) (h : k' ≠ k) :
    jsGet (objSet (.obj fs) k v) k' = jsGet (.obj fs) k' := by
  simp [objSet, jsGet, find?_setKey_ne fs k v k' h]

/-- Option-valued read after writing the same key on an object. -/
lemma objGet_objSet_self (fs : List (String × JSValue)) (k : String) (v : JSValue) :
    objGet (objSet (.obj fs) k v) k = some v := by
  simp [objSet, objGet, find?_setKey_self]

/-- Option-valued read after writing a different key on an object. -/
lemma objGet_objSet_ne (fs : List (String × JSValue)) (k : String) (v : JSValue)
    (k' : String) (h : k' ≠ k) :
    objGet (objSet (.obj fs) k v) k' = objGet (.obj fs) k' := by
  simp [objSet, objGet, find?_setKey_ne fs k v k' h]

/-- The derived field name is the configured field in both branches. -/
lemma fieldName_getOperationMetadata (c : JSONSchemaOperationConfig) :
    (getOperationMetadata c).fieldName = c.field := by
  by_cases h : isPubSubOperationConfig c <;> simp [getOperationMetadata, h]

/-- A string never equals itself with the Input suffix appended. -/
lemma self_ne_append_Input (s : String) : s ≠ s ++ "Input" := by
  intro h
  have hlen := congrArg String.length h
  rw [String.length_append] at hlen
  have h5 : "Input".length = 5 := rfl
  rw [h5] at hlen
  omega

end Mesh

namespace Mesh

/-- Reading the key just set, phrased on the underlying list. -/
lemma jsGet_setKey_self (fs : List (String × JSValue)) (k : String) (v : JSValue) :
    jsGet (.obj (setKey fs k v)) k = v := by
  simp [jsGet, find?_setKey_self]

/-- Reading another key after a set, phrased on the underlying list. -/
lemma jsGet_setKey_ne (fs : List (String × JSValue)) (k : String) (v : JSValue)
    (k' : String) (h : k' ≠ k) :
    jsGet (.obj (setKey fs k v)) k' = jsGet (.obj fs) k' := by
  simp [jsGet, find?_setKey_ne fs k v k' h]

/-- Option read of the key just set, phrased on the underlying list. -/
lemma objGet_setKey_self (fs : List (String × JSValue)) (k : String) (v : JSValue) :
    objGet (.obj (setKey fs k v)) k = some v := by
  simp [objGet, find?_setKey_self]

/-- Option read of another key after a set, on the underlying list. -/
lemma objGet_setKey_ne (fs : List (String × JSValue)) (k : String) (v : JSValue)
    (k' : String) (h : k' ≠ k) :
    objGet (.obj (setKey fs k v)) k' = objGet (.obj fs) k' := by
  simp [objGet, find?_setKey_ne fs k v k' h]

/-- The or-else of a truthy object is that object. -/
lemma jsOr_obj_left (fs : List (String × JSValue)) (d : JSValue) :
    jsOr (.obj fs) d = .obj fs := rfl

/-- The or-else of an object-or-falsy value against an object default is
an object. -/
lemma jsOr_objOrFalsy (v : JSValue) (dfs : List (String × JSValue))
    (hv : objOrFalsy v) : ∃ qs, jsOr v (.obj dfs) = .obj qs := by
  rcases hv with ⟨fs, rfl⟩ | hfalse
  · exact ⟨fs, rfl⟩
  · exact ⟨dfs, by simp [jsOr, hfalse]⟩

/-- A successful option read forces an object receiver. -/
lemma objGet_some_obj (v : JSValue) (k : String) (x : JSValue)
    (h : objGet v k = some x) : ∃ fs, v = .obj fs := by
  cases v
  case obj fs => exact ⟨fs, rfl⟩
  all_goals simp [objGet] at h

/-- A property read yielding an object forces an object receiver. -/
lemma jsGet_eq_obj_receiver (v : JSValue) (k : String)
    (fs' : List (String × JSValue)) (h : jsGet v k = .obj fs') :
    ∃ fs, v = .obj fs := by
  cases v
  case obj fs => exact ⟨fs, rfl⟩
  all_goals simp [jsGet] at h

/-- A retrievable field schema pins down the object spine above it. -/
lemma compositeFieldSchema_spine (schema : JSValue) (opType fieldName : String)
    (x : JSValue) (h : compositeFieldSchema schema opType fieldName = some x) :
    ∃ fs ps rdfs rpfs, schema = .obj fs
      ∧ jsGet schema "properties" = .obj ps
      ∧ jsGet (.obj ps) opType = .obj rdfs
      ∧ jsGet (.obj rdfs) "properties" = .obj rpfs
      ∧ objGet (.obj rpfs) fieldName = some x := by
  rw [compositeFieldSchema] at h
  obtain ⟨rpfs, hC⟩ :=
    objGet_some_obj (jsGet (jsGet (jsGet schema "properties") opType) "properties")
      fieldName x h
  obtain ⟨rdfs, hB⟩ :=
    jsGet_eq_obj_receiver (jsGet (jsGet schema "properties") opType) "properties" rpfs hC
  obtain ⟨ps, hA⟩ :=
    jsGet_eq_obj_receiver (jsGet schema "properties") opType rdfs hB
  obtain ⟨fs, hS⟩ := jsGet_eq_obj_receiver schema "properties" ps hA
  rw [hA] at hB hC h
  rw [hB] at hC h
  rw [hC] at h
  exact ⟨fs, ps, rdfs, rpfs, hS, hA, hB, hC, h⟩

end Mesh

namespace Mesh

/-- The root type definition the loop starts an iteration from is an
object whose properties member is an object or falsy, whether it reuses
an entry of a well-formed state or falls back to the default. -/
lemma rootDef_shape (ps : List (String × JSValue)) (opType : String) (t : JSValue)
    (hps : ∀ kv ∈ ps, (∃ dfs, kv.2 = .obj dfs) ∧ objOrFalsy (jsGet kv.2 "properties")) :
    ∃ dfs, jsOr (jsGet (.obj ps) opType)
        (.obj [("type", .str "object"), ("title", t), ("properties", .obj [])])
      = .obj dfs ∧ objOrFalsy (jsGet (.obj dfs) "properties") := by
  cases hf : ps.find? (fun kv => kv.1 = opType) with
  | none =>
    refine ⟨[("type", .str "object"), ("title", t), ("properties", .obj [])], ?_, ?_⟩
    · simp [jsGet, hf, jsOr, truthy]
    · exact Or.inl ⟨[], rfl⟩
  | some kv =>
    obtain ⟨⟨dfs, hdfs⟩, hof⟩ := hps kv (List.mem_of_find?_eq_some hf)
    refine ⟨dfs, ?_, ?_⟩
    · simp [jsGet, hf, hdfs, jsOr, truthy]
    · rw [← hdfs]
      exact hof

end Mesh

namespace Mesh

/-- Writing on an object receiver, as a rewrite rule. -/
lemma objSet_obj (fs : List (String × JSValue)) (k : String) (v : JSValue) :
    objSet (.obj fs) k v = .obj (setKey fs k v) := rfl

/-- A successful iteration over an operation with an explicit response
schema leaves exactly the reference object under the operation type and
field name, whatever state the iteration started from, provided that
state is well formed. -/
lemma processOperation_sets_ref (read : String → Except String JSValue)
    (toSchema : JSValue → JSValue) (schema s2 : JSValue)
    (op : JSONSchemaOperationConfig) (r : String)
    (hwf : wellFormedState schema)
    (hr : op.responseSchema = some r)
    (h : processOperation read toSchema schema op = .ok s2) :
    compositeFieldSchema s2 (getOperationMetadata op).operationType op.field
      = some (.obj [("$ref", .str r)]) := by
  obtain ⟨fs, ps, hS, hA, hentries⟩ := hwf
  subst hS
  have hresp : responseProperty read toSchema op = .ok (.obj [("$ref", .str r)]) := by
    simp [responseProperty, hr]
  obtain ⟨dfs, hroot, hrof⟩ :=
    rootDef_shape ps (getOperationMetadata op).operationType
      (.str (getOperationMetadata op).rootTypeName) hentries
  obtain ⟨qs, hQ⟩ := jsOr_objOrFalsy (jsGet (.obj dfs) "properties") [] hrof
  have hne1 : (getOperationMetadata op).operationType
      ≠ (getOperationMetadata op).operationType ++ "Input" :=
    self_ne_append_Input _
  simp only [processOperation, hresp, hA] at h
  cases hreq : requestProperty read toSchema op with
  | error e =>
    rw [hreq] at h
    exact absurd h (by simp)
  | ok reqOpt =>
    rw [hreq] at h
    cases reqOpt with
    | none =>
      simp only [Except.ok.injEq] at h
      subst h
      simp only [compositeFieldSchema, fieldName_getOperationMetadata, hroot, hQ,
        objSet_obj, jsGet_setKey_self, jsGet_setKey_ne, hne1, ne_eq,
        not_false_iff, objGet_setKey_self]
    | some reqProp =>
      simp only [Except.ok.injEq] at h
      subst h
      simp only [compositeFieldSchema, fieldName_getOperationMetadata, hroot, hQ,
        objSet_obj, jsGet_setKey_self, jsGet_setKey_ne, hne1, ne_eq,
        not_false_iff, objGet_setKey_self]

end Mesh

namespace Mesh

/-- An iteration over an operation that targets a different operation
type or field, and whose derived Input key also differs from the watched
operation type, leaves the watched field schema untouched. -/
lemma processOperation_preserves_field (read : String → Except String JSValue)
    (toSchema : JSValue → JSValue) (schema s2 : JSValue)
    (op2 : JSONSchemaOperationConfig) (opType fieldName : String) (x : JSValue)
    (h : processOperation read toSchema schema op2 = .ok s2)
    (hne : (getOperationMetadata op2).operationType ≠ opType ∨ op2.field ≠ fieldName)
    (hinput : (getOperationMetadata op2).operationType ++ "Input" ≠ opType)
    (hprev : compositeFieldSchema schema opType fieldName = some x) :
    compositeFieldSchema s2 opType fieldName = some x := by
  obtain ⟨fs, ps, rdfs, rpfs, hS, hA, hB, hC, hget⟩ :=
    compositeFieldSchema_spine schema opType fieldName x hprev
  subst hS
  cases hresp : responseProperty read toSchema op2 with
  | error e =>
    simp [processOperation, hresp] at h
  | ok respProp =>
    simp only [processOperation, hresp, hA] at h
    cases hreq : requestProperty read toSchema op2 with
    | error e =>
      rw [hreq] at h
      exact absurd h (by simp)
    | ok reqOpt =>
      rw [hreq] at h
      have hx1 : opType ≠ (getOperationMetadata op2).operationType ++ "Input" :=
        fun hh => hinput hh.symm
      by_cases hOT : (getOperationMetadata op2).operationType = opType
      · have hf : op2.field ≠ fieldName := by
          rcases hne with hl | hr2
          · exact absurd hOT hl
          · exact hr2
        have hfs : fieldName ≠ op2.field := fun hh => hf hh.symm
        rw [hOT] at h hx1
        have hroot2 : jsOr (jsGet (.obj ps) opType)
            (.obj [("type", .str "object"),
              ("title", .str (getOperationMetadata op2).rootTypeName),
              ("properties", .obj [])]) = .obj rdfs := by
          rw [hB]
          exact jsOr_obj_left rdfs _
        have hQ2 : jsOr (jsGet (.obj rdfs) "properties") (.obj []) = .obj rpfs := by
          rw [hC]
          exact jsOr_obj_left rpfs _
        cases reqOpt with
        | none =>
          simp only [Except.ok.injEq] at h
          subst h
          simp only [compositeFieldSchema, fieldName_getOperationMetadata, hroot2,
            hQ2, objSet_obj, jsGet_setKey_self, jsGet_setKey_ne, hx1, ne_eq,
            not_false_iff, objGet_setKey_ne, hfs, hget]
        | some reqProp =>
          simp only [Except.ok.injEq] at h
          subst h
          simp only [compositeFieldSchema, fieldName_getOperationMetadata, hroot2,
            hQ2, objSet_obj, jsGet_setKey_self, jsGet_setKey_ne, hx1, ne_eq,
            not_false_iff, objGet_setKey_ne, hfs, hget]
      · have hx2 : opType ≠ (getOperationMetadata op2).operationType :=
          fun hh => hOT hh.symm
        cases reqOpt with
        | none =>
          simp only [Except.ok.injEq] at h
          subst h
          simp only [compositeFieldSchema, objSet_obj, jsGet_setKey_self,
            jsGet_setKey_ne, hx1, hx2, ne_eq, not_false_iff, hB, hC, hget]
        | some reqProp =>
          simp only [Except.ok.injEq] at h
          subst h
          simp only [compositeFieldSchema, objSet_obj, jsGet_setKey_self,
            jsGet_setKey_ne, hx1, hx2, ne_eq, not_false_iff, hB, hC, hget]

end Mesh

namespace Mesh

/-- A field schema survives the rest of the loop when no later operation
targets the same operation type and field, and no later derived Input
key equals the watched operation type. -/
lemma buildCompositeLoop_preserves (read : String → Except String JSValue)
    (toSchema : JSValue → JSValue) (rest : List JSONSchemaOperationConfig)
    (schema final : JSValue) (opType fieldName : String) (x : JSValue)
    (hloop : buildCompositeLoop read toSchema schema rest = .ok final)
    (hprev : compositeFieldSchema schema opType fieldName = some x)
    (hconds : ∀ op2 ∈ rest,
      ((getOperationMetadata op2).operationType ≠ opType ∨ op2.field ≠ fieldName)
      ∧ (getOperationMetadata op2).operationType ++ "Input" ≠ opType) :
    compositeFieldSchema final opType fieldName = some x := by
  induction rest generalizing schema with
  | nil =>
    simp only [buildCompositeLoop, Except.ok.injEq] at hloop
    rw [← hloop]
    exact hprev
  | cons op2 rest2 ih =>
    rw [buildCompositeLoop] at hloop
    cases hstep : processOperation read toSchema schema op2 with
    | error e =>
      rw [hstep] at hloop
      exact absurd hloop (by simp)
    | ok s2 =>
      rw [hstep] at hloop
      exact ih s2 hloop
        (processOperation_preserves_field read toSchema schema s2 op2 opType
          fieldName x hstep (hconds op2 (by simp)).1 (hconds op2 (by simp)).2 hprev)
        (fun o ho => hconds o (by simp [ho]))

end Mesh

/-- C9: for every operation with an explicit responseSchema reference,
the property the loop emits under the operation type and field name of
the composite schema is exactly the bare reference object, provided the
loop succeeds, the iteration starts from a well-formed state, and no
later operation overwrites that slot; moreover the response side never
invokes the sample reader or the schema inference, as its result is the
same reference object for every reader and every inference function. -/
theorem c9_responseSchema_emits_exact_ref (read read2 : String → Except String Mesh.JSValue)
    (toSchema toSchema2 : Mesh.JSValue → Mesh.JSValue) (schema : Mesh.JSValue)
    (op : Mesh.JSONSchemaOperationConfig) (rest : List Mesh.JSONSchemaOperationConfig)
    (r : String)
    (hwf : Mesh.wellFormedState schema)
    (hr : op.responseSchema = some r)
    (hconds : ∀ op2 ∈ rest,
      ((Mesh.getOperationMetadata op2).operationType
          ≠ (Mesh.getOperationMetadata op).operationType
        ∨ op2.field ≠ op.field)
      ∧ (Mesh.getOperationMetadata op2).operationType ++ "Input"
          ≠ (Mesh.getOperationMetadata op).operationType) :
    (∀ final, Mesh.buildCompositeLoop read toSchema schema (op :: rest) = .ok final →
      Mesh.compositeFieldSchema final (Mesh.getOperationMetadata op).operationType op.field
        = some (.obj [("$ref", .str r)]))
    ∧ Mesh.responseProperty read2 toSchema2 op = .ok (.obj [("$ref", .str r)]) := by
  constructor
  · intro final hloop
    rw [Mesh.buildCompositeLoop] at hloop
    cases hstep : Mesh.processOperation read toSchema schema op with
    | error e =>
      rw [hstep] at hloop
      exact absurd hloop (by simp)
    | ok s2 =>
      rw [hstep] at hloop
      exact Mesh.buildCompositeLoop_preserves read toSchema rest s2 final
        (Mesh.getOperationMetadata op).operationType op.field _ hloop
        (Mesh.processOperation_sets_ref read toSchema schema s2 op r hwf hr hstep)
        hconds
  · simp [Mesh.responseProperty, hr]

/-- C9 witness: the theorem at the one-operation list with an explicit
reference, under a reader that fails on every path; the build succeeds
and emits exactly the reference object. -/
theorem c9_responseSchema_emits_exact_ref_witness :
    Mesh.compositeFieldSchemaOfResult Mesh.c9BuildResult "query" "getUser"
      = some (.obj [("$ref", .str "user.json")]) := by
  have hok : Mesh.isOkSchema Mesh.c9BuildResult = true := rfl
  have hthm := c9_responseSchema_emits_exact_ref Mesh.readBoom Mesh.readBoom id id
    Mesh.initialComposite Mesh.refOpC9 [] "user.json"
    ⟨[("type", .str "object"), ("title", .str "_schema"),
      ("properties", .obj []), ("required", .arr [.str "query"])], [],
      rfl, rfl, by simp⟩
    rfl (by simp)
  cases hres : Mesh.c9BuildResult with
  | ok f =>
    have hfield := hthm.1 f hres
    simpa [Mesh.compositeFieldSchemaOfResult] using hfield
  | error e =>
    rw [hres] at hok
    simp [Mesh.isOkSchema] at hok

/-- C8 counterexample: a failing response sample read aborts the build,
but the error message is the responseSample tag with the original
message appended; it does not carry the field name of the operation. -/
theorem c8_counterexample_error_lacks_field_name :
    Mesh.buildCompositeLoop Mesh.readBoom id Mesh.initialComposite [Mesh.sampleOpC8]
      = .error "responseSample - boom"
    ∧ Mesh.sampleOpC8.field = "fooField"
    ∧ Mesh.mentions "responseSample - boom" "fooField" = false :=
  ⟨rfl, rfl, by decide⟩

/-- C8 amended: when an operation's responseSample cannot be read, the
build fails with the responseSample tag followed by the original error
message, from any loop state; a failing requestSample read (with the
response side satisfied by an explicit schema) fails with the
requestSample tag carrying the sample path and the original message; and
on a failing response read the dereference, heal and re-reference
pipeline is never applied: the full build returns the same error for
every choice of pipeline functions. -/
theorem c8_sample_read_failure_amended (read : String → Except String Mesh.JSValue)
    (toSchema : Mesh.JSValue → Mesh.JSValue) (schema : Mesh.JSValue)
    (op : Mesh.JSONSchemaOperationConfig)
    (rest : List Mesh.JSONSchemaOperationConfig) (p q m r : String) :
    (op.responseSchema = none → op.responseSample = some p → read p = .error m →
      Mesh.buildCompositeLoop read toSchema schema (op :: rest)
        = .error ("responseSample - " ++ m))
    ∧ (op.responseSchema = some r → op.requestSchema = none →
      op.requestSample = some q → read q = .error m →
      Mesh.buildCompositeLoop read toSchema schema (op :: rest)
        = .error ("requestSample:" ++ q ++ " cannot be read - " ++ m))
    ∧ (op.responseSchema = none → op.responseSample = some p → read p = .error m →
      ∀ deref heal reref, Mesh.buildFinalJSONSchema read toSchema deref heal reref (op :: rest)
        = .error ("responseSample - " ++ m)) := by
  refine ⟨?_, ?_, ?_⟩
  · intro h1 h2 h3
    have hresp : Mesh.responseProperty read toSchema op
        = .error ("responseSample - " ++ m) := by
      simp [Mesh.responseProperty, h1, h2, h3]
    rw [Mesh.buildCompositeLoop]
    simp [Mesh.processOperation, hresp]
  · intro h1 h2 h3 h4
    have hresp : Mesh.responseProperty read toSchema op = .ok (.obj [("$ref", .str r)]) := by
      simp [Mesh.responseProperty, h1]
    have hreq : Mesh.requestProperty read toSchema op
        = .error ("requestSample:" ++ q ++ " cannot be read - " ++ m) := by
      simp [Mesh.requestProperty, h2, h3, h4]
    rw [Mesh.buildCompositeLoop]
    simp [Mesh.processOperation, hresp, hreq]
  · intro h1 h2 h3 deref heal reref
    have hresp : Mesh.responseProperty read toSchema op
        = .error ("responseSample - " ++ m) := by
      simp [Mesh.responseProperty, h1, h2, h3]
    rw [Mesh.buildFinalJSONSchema, Mesh.buildCompositeLoop]
    simp [Mesh.processOperation, hresp]

/-- C8 witness: the amended theorem at the failing request sample and at
a concrete pipeline for the failing response sample. -/
theorem c8_sample_read_failure_amended_witness :
    Mesh.buildCompositeLoop Mesh.readBoom id Mesh.initialComposite [Mesh.reqSampleOpC8]
      = .error ("requestSample:" ++ "req.json" ++ " cannot be read - " ++ "boom")
    ∧ Mesh.buildFinalJSONSchema Mesh.readBoom id id id id [Mesh.sampleOpC8]
      = .error ("responseSample - " ++ "boom") := by
  constructor
  · exact (c8_sample_read_failure_amended Mesh.readBoom id Mesh.initialComposite
      Mesh.reqSampleOpC8 [] "sample.json" "req.json" "boom" "resp.json").2.1
      rfl rfl rfl rfl
  · exact (c8_sample_read_failure_amended Mesh.readBoom id Mesh.initialComposite
      Mesh.sampleOpC8 [] "sample.json" "req.json" "boom" "resp.json").2.2
      rfl rfl rfl id id id
